import Mathlib

/-!
Verification of the half-life dose calculator (src/App.tsx).

The TypeScript source is shallowly embedded over the real numbers:
JavaScript finite floating-point values become `ℝ`, timestamps
(`Date.getTime()` milliseconds) become `ℝ`, and `Math.pow(0.5, x)`
becomes the real power `(1/2 : ℝ) ^ x` (`Real.rpow`). A function that
can `throw` is embedded with `Except String`. The input boundary
(`addDose`), where `parseFloat` can also produce `NaN` and `±Infinity`,
is embedded separately with an explicit `JSNum` type.
-/

/-- The unit of a dose: the closed union type `'mg' | 'ug' | 'g' | 'iu'`
from the `Dose` interface. -/
inductive DoseUnit where
  | mg
  | ug
  | g
  | iu
deriving DecidableEq, Repr

/-- A dosage record (interface `Dose`): identifier, amount in the given
unit, unit, and timestamp in milliseconds since the epoch. -/
structure Dose where
  id : String
  amount : ℝ
  unit : DoseUnit
  timestamp : ℝ

/-- Calculator configuration (interface `CalculatorConfig`); the optional
`targetTime` (defaulting to now at the call site) is embedded as the
already-resolved evaluation instant in milliseconds. -/
structure CalculatorConfig where
  halfLifeHours : ℝ
  targetTime : ℝ

/-- Embedding of `convertToMg(amount, unit)`: normalize an amount to milligrams.
`g` multiplies by 1000, `ug` divides by 1000, `mg` and `iu` are
unchanged (the `default` arm of the source `switch` is unreachable). -/
noncomputable def convertToMg (amount : ℝ) : DoseUnit → ℝ
  | .g => amount * 1000
  | .mg => amount
  | .ug => amount / 1000
  | .iu => amount

/-- Embedding of `calculateActiveLevel(doses, config)`: throws when
`halfLifeHours <= 0`; otherwise reduces over the doses, skipping a dose
whose elapsed time `(targetTime - dose.timestamp) / (1000*60*60)` hours
is negative and otherwise adding
`convertToMg(dose.amount, dose.unit) * 0.5 ^ (elapsedHours / halfLifeHours)`. -/
noncomputable def calculateActiveLevel (doses : List Dose)
    (config : CalculatorConfig) : Except String ℝ :=
  if config.halfLifeHours ≤ 0 then
    .error "Half-life must be a positive number."
  else
    .ok (doses.foldl (fun total dose =>
      let elapsedHours := (config.targetTime - dose.timestamp) / (1000 * 60 * 60)
      if elapsedHours < 0 then
        total
      else
        total + convertToMg dose.amount dose.unit *
          (1 / 2 : ℝ) ^ (elapsedHours / config.halfLifeHours)) 0)

/-- The contribution of one dose to the reduce in `calculateActiveLevel`:
zero for a dose in the strict future of the target time, decayed
amount otherwise. -/
noncomputable def doseContribution (halfLifeHours targetTime : ℝ)
    (dose : Dose) : ℝ :=
  let elapsedHours := (targetTime - dose.timestamp) / (1000 * 60 * 60)
  if elapsedHours < 0 then 0
  else convertToMg dose.amount dose.unit *
    (1 / 2 : ℝ) ^ (elapsedHours / halfLifeHours)

lemma foldl_add_contrib (halfLifeHours targetTime : ℝ) (doses : List Dose)
    (init : ℝ) :
    doses.foldl (fun total dose =>
      let elapsedHours := (targetTime - dose.timestamp) / (1000 * 60 * 60)
      if elapsedHours < 0 then
        total
      else
        total + convertToMg dose.amount dose.unit *
          (1 / 2 : ℝ) ^ (elapsedHours / halfLifeHours)) init
      = init + (doses.map (doseContribution halfLifeHours targetTime)).sum := by
  induction doses generalizing init with
  | nil => simp
  | cons d ds ih =>
    simp only [List.foldl_cons, List.map_cons, List.sum_cons, ih,
      doseContribution]
    by_cases h : (targetTime - d.timestamp) / (1000 * 60 * 60) < 0
    · simp [h]
    · simp [h]
      ring

/-- When the half-life is positive, `calculateActiveLevel` returns the
sum of the per-dose contributions. -/
lemma calculateActiveLevel_eq_sum (doses : List Dose)
    (config : CalculatorConfig) (h : 0 < config.halfLifeHours) :
    calculateActiveLevel doses config =
      .ok ((doses.map
        (doseContribution config.halfLifeHours config.targetTime)).sum) := by
  rw [calculateActiveLevel, if_neg (not_le.mpr h),
    foldl_add_contrib, zero_add]

/-- Claim C5: `convertToMg` maps (a, mg) to a, (a, g) to a × 1000,
(a, μg) to a / 1000 and (a, IU) to a unchanged, for every amount, and
1000 μg ≡ 1 mg ≡ 0.001 g under it; it is total, so it has no error
cases. -/
theorem claim_C5 (a : ℝ) :
    convertToMg a .mg = a ∧ convertToMg a .g = a * 1000 ∧
    convertToMg a .ug = a / 1000 ∧ convertToMg a .iu = a ∧
    convertToMg 1000 .ug = convertToMg 1 .mg ∧
    convertToMg 1 .mg = convertToMg 0.001 .g :=
  ⟨rfl, rfl, rfl, rfl, by norm_num [convertToMg], by norm_num [convertToMg]⟩

/-- Claim C2: `calculateActiveLevel` raises its configuration error if
and only if `halfLifeHours ≤ 0` (so no level is returned in that case),
and for a positive half-life it returns a value for every dose list. -/
theorem claim_C2 (doses : List Dose) (config : CalculatorConfig) :
    ((∃ e, calculateActiveLevel doses config = .error e) ↔
      config.halfLifeHours ≤ 0) ∧
    (0 < config.halfLifeHours →
      ∃ v, calculateActiveLevel doses config = .ok v) := by
  constructor
  · constructor
    · rintro ⟨e, he⟩
      by_contra hpos
      push_neg at hpos
      rw [calculateActiveLevel, if_neg (not_le.mpr hpos)] at he
      exact Except.noConfusion he
    · intro hle
      exact ⟨_, by rw [calculateActiveLevel, if_pos hle]⟩
  · intro hpos
    exact ⟨_, calculateActiveLevel_eq_sum _ _ hpos⟩

/-- Witness for C2 at concrete configurations: half-life −1 errors,
half-life 1 succeeds, on the empty dose list. -/
theorem claim_C2_witness :
    (∃ e, calculateActiveLevel [] ⟨-1, 0⟩ = .error e) ∧
    (∃ v, calculateActiveLevel [] ⟨1, 0⟩ = .ok v) :=
  ⟨(claim_C2 [] ⟨-1, 0⟩).1.mpr (by norm_num),
   (claim_C2 [] ⟨1, 0⟩).2 (by norm_num)⟩

/-- Claim C1: for half-life h > 0 and a single dose of amount A in mg at
timestamp t, the active level at `t + h` hours (t plus h·3600000 ms) is
exactly A / 2. -/
theorem claim_C1 (A t h : ℝ) (idStr : String) (hh : 0 < h) :
    calculateActiveLevel [⟨idStr, A, .mg, t⟩]
      ⟨h, t + h * (1000 * 60 * 60)⟩ = .ok (A / 2) := by
  rw [calculateActiveLevel_eq_sum _ _ hh]
  have e1 : (t + h * (1000 * 60 * 60) - t) / (1000 * 60 * 60) = h := by
    ring
  simp only [List.map_cons, List.map_nil, List.sum_cons, List.sum_nil,
    doseContribution, convertToMg, e1, add_zero]
  rw [if_neg (not_lt.mpr hh.le), div_self hh.ne', Real.rpow_one]
  rw [Except.ok.injEq]
  ring

/-- Witness for C1: a 4 mg dose at time 0 with half-life 1 hour leaves
2 mg after one hour. -/
theorem claim_C1_witness :
    0 < (1 : ℝ) ∧
    calculateActiveLevel [⟨"w", 4, .mg, 0⟩]
      ⟨1, 0 + 1 * (1000 * 60 * 60)⟩ = .ok (4 / 2) :=
  ⟨by norm_num, claim_C1 4 0 1 "w" (by norm_num)⟩

/-- Claim C6: for a positive half-life, a single dose evaluated at its
own timestamp (elapsed time 0) yields its amount converted to mg: the
decay factor is 1 and the zero branch is not taken. -/
theorem claim_C6 (dose : Dose) (h : ℝ) (hh : 0 < h) :
    calculateActiveLevel [dose] ⟨h, dose.timestamp⟩ =
      .ok (convertToMg dose.amount dose.unit) := by
  rw [calculateActiveLevel_eq_sum _ _ hh]
  simp [doseContribution, Real.rpow_zero]

/-- Witness for C6: a 2 mg dose at time 0 with half-life 1, evaluated at
time 0, gives back 2 mg. -/
theorem claim_C6_witness :
    0 < (1 : ℝ) ∧
    calculateActiveLevel [⟨"w", 2, .mg, 0⟩] ⟨1, 0⟩ =
      .ok (convertToMg 2 .mg) :=
  ⟨by norm_num, claim_C6 ⟨"w", 2, .mg, 0⟩ 1 (by norm_num)⟩

/-- Claim C3: with a positive half-life, a dose whose timestamp is
strictly after the evaluation instant contributes exactly 0, and
removing it from the list leaves the result unchanged. -/
theorem claim_C3 (l1 l2 : List Dose) (dose : Dose)
    (config : CalculatorConfig) (hh : 0 < config.halfLifeHours)
    (hfut : config.targetTime < dose.timestamp) :
    doseContribution config.halfLifeHours config.targetTime dose = 0 ∧
    calculateActiveLevel (l1 ++ dose :: l2) config =
      calculateActiveLevel (l1 ++ l2) config := by
  have hc : doseContribution config.halfLifeHours config.targetTime dose
      = 0 := by
    unfold doseContribution
    rw [if_pos]
    exact div_neg_of_neg_of_pos (by linarith) (by norm_num)
  refine ⟨hc, ?_⟩
  rw [calculateActiveLevel_eq_sum _ _ hh, calculateActiveLevel_eq_sum _ _ hh]
  simp [hc]

/-- Witness for C3: a 1 mg dose one millisecond in the future of the
evaluation instant contributes nothing. -/
theorem claim_C3_witness :
    doseContribution 1 0 ⟨"f", 1, .mg, 1⟩ = 0 ∧
    calculateActiveLevel ([] ++ ⟨"f", 1, .mg, 1⟩ :: []) ⟨1, 0⟩ =
      calculateActiveLevel ([] ++ []) ⟨1, 0⟩ :=
  claim_C3 [] [] ⟨"f", 1, .mg, 1⟩ ⟨1, 0⟩ (by norm_num) (by norm_num)

/-- Claim C9 counterexample: on the empty dose list with
`halfLifeHours = 0`, `calculateActiveLevel` throws instead of
returning 0 — the half-life check runs before the (empty) reduce. -/
theorem claim_C9_counterexample :
    calculateActiveLevel [] ⟨0, 0⟩ =
      .error "Half-life must be a positive number." ∧
    calculateActiveLevel [] ⟨0, 0⟩ ≠ .ok 0 := by
  have he : calculateActiveLevel [] ⟨0, 0⟩ =
      .error "Half-life must be a positive number." := by
    simp [calculateActiveLevel]
  exact ⟨he, by simp [he]⟩

/-- Claim C9 (amended): for every configuration with a positive
half-life, the empty dose collection yields level 0, at any evaluation
instant. -/
theorem claim_C9_amended (config : CalculatorConfig)
    (h : 0 < config.halfLifeHours) :
    calculateActiveLevel [] config = .ok 0 := by
  rw [calculateActiveLevel_eq_sum _ _ h]
  simp

/-- Witness for the amended C9 at half-life 1, instant 5. -/
theorem claim_C9_witness :
    0 < (1 : ℝ) ∧ calculateActiveLevel [] ⟨1, 5⟩ = .ok 0 :=
  ⟨by norm_num, claim_C9_amended ⟨1, 5⟩ (by norm_num)⟩

lemma convertToMg_nonneg (a : ℝ) (u : DoseUnit) (ha : 0 ≤ a) :
    0 ≤ convertToMg a u := by
  cases u
  · exact ha
  · exact div_nonneg ha (by norm_num)
  · exact mul_nonneg ha (by norm_num)
  · exact ha

lemma doseContribution_nonneg (h t : ℝ) (d : Dose) (ha : 0 ≤ d.amount) :
    0 ≤ doseContribution h t d := by
  unfold doseContribution
  by_cases hc : (t - d.timestamp) / (1000 * 60 * 60) < 0
  · simp [hc]
  · simp only [hc, if_false]
    exact mul_nonneg (convertToMg_nonneg _ _ ha)
      (Real.rpow_pos_of_pos (by norm_num) _).le

/-- Claim C10: at a fixed positive half-life and fixed instant, the
level is additive over list concatenation, invariant under permutation
of the doses, and non-negative when every dose amount is
non-negative. -/
theorem claim_C10 (h t : ℝ) (hh : 0 < h) :
    (∀ d1 d2 : List Dose, ∃ v1 v2 v12 : ℝ,
      calculateActiveLevel d1 ⟨h, t⟩ = .ok v1 ∧
      calculateActiveLevel d2 ⟨h, t⟩ = .ok v2 ∧
      calculateActiveLevel (d1 ++ d2) ⟨h, t⟩ = .ok v12 ∧
      v12 = v1 + v2) ∧
    (∀ d1 d2 : List Dose, d1.Perm d2 →
      calculateActiveLevel d1 ⟨h, t⟩ = calculateActiveLevel d2 ⟨h, t⟩) ∧
    (∀ (l : List Dose) (v : ℝ), (∀ d ∈ l, 0 ≤ d.amount) →
      calculateActiveLevel l ⟨h, t⟩ = .ok v → 0 ≤ v) := by
  refine ⟨fun d1 d2 => ⟨_, _, _, calculateActiveLevel_eq_sum _ _ hh,
    calculateActiveLevel_eq_sum _ _ hh,
    calculateActiveLevel_eq_sum _ _ hh, ?_⟩, fun d1 d2 hp => ?_,
    fun l v hamt hv => ?_⟩
  · simp
  · rw [calculateActiveLevel_eq_sum _ _ hh,
      calculateActiveLevel_eq_sum _ _ hh]
    exact congrArg _ ((hp.map _).sum_eq)
  · rw [calculateActiveLevel_eq_sum _ _ hh] at hv
    obtain rfl := (Except.ok.injEq _ _).mp hv.symm
    exact List.sum_nonneg (by
      intro x hx
      obtain ⟨d, hd, rfl⟩ := List.mem_map.mp hx
      exact doseContribution_nonneg _ _ _ (hamt d hd))

/-- Witness for C10: additivity at two concrete one-dose lists with
half-life 1 at instant 0. -/
theorem claim_C10_witness :
    0 < (1 : ℝ) ∧ ∃ v1 v2 v12 : ℝ,
      calculateActiveLevel [⟨"a", 1, .mg, 0⟩] ⟨1, 0⟩ = .ok v1 ∧
      calculateActiveLevel [⟨"b", 2, .mg, 0⟩] ⟨1, 0⟩ = .ok v2 ∧
      calculateActiveLevel ([⟨"a", 1, .mg, 0⟩] ++ [⟨"b", 2, .mg, 0⟩])
        ⟨1, 0⟩ = .ok v12 ∧
      v12 = v1 + v2 :=
  ⟨by norm_num,
   (claim_C10 1 0 (by norm_num)).1 [⟨"a", 1, .mg, 0⟩] [⟨"b", 2, .mg, 0⟩]⟩

/-- Claim C4 counterexample: monotonicity in the evaluation instant
fails once the instant crosses a dose's timestamp. A 1 mg dose at
timestamp 3600000 ms with half-life 1: the level at instant 0 is 0
(future dose), the level at instant 3600000 is 1, and 1 ≤ 0 is false,
refuting "for all instants t1 ≤ t2, level(t2) ≤ level(t1)". -/
theorem claim_C4_counterexample :
    (0 : ℝ) ≤ 3600000 ∧
    calculateActiveLevel [⟨"d", 1, .mg, 3600000⟩] ⟨1, 0⟩ = .ok 0 ∧
    calculateActiveLevel [⟨"d", 1, .mg, 3600000⟩] ⟨1, 3600000⟩ = .ok 1 ∧
    ¬ ((1 : ℝ) ≤ 0) := by
  refine ⟨by norm_num, ?_, ?_, by norm_num⟩
  · rw [calculateActiveLevel_eq_sum _ _ (by norm_num)]
    have hc : doseContribution 1 0 ⟨"d", 1, .mg, 3600000⟩ = 0 := by
      simp only [doseContribution]
      rw [if_pos
        (show ((0 : ℝ) - 3600000) / (1000 * 60 * 60) < 0 by norm_num)]
    simp [hc]
  · rw [calculateActiveLevel_eq_sum _ _ (by norm_num)]
    simp [doseContribution, convertToMg]

lemma doseContribution_anti (h t1 t2 : ℝ) (d : Dose) (hh : 0 < h)
    (ha : 0 ≤ d.amount) (hts : d.timestamp ≤ t1) (h12 : t1 ≤ t2) :
    doseContribution h t2 d ≤ doseContribution h t1 d := by
  unfold doseContribution
  have he1 : (0 : ℝ) ≤ (t1 - d.timestamp) / (1000 * 60 * 60) :=
    div_nonneg (by linarith) (by norm_num)
  have he2 : (t1 - d.timestamp) / (1000 * 60 * 60) ≤
      (t2 - d.timestamp) / (1000 * 60 * 60) := by
    apply div_le_div_of_nonneg_right (by linarith)
    norm_num
  simp only [not_lt.mpr he1, not_lt.mpr (he1.trans he2), if_false]
  apply mul_le_mul_of_nonneg_left _ (convertToMg_nonneg _ _ ha)
  exact Real.rpow_le_rpow_of_exponent_ge (by norm_num) (by norm_num)
    (div_le_div_of_nonneg_right he2 hh.le)

/-- Claim C4 (amended): for a fixed dose list with non-negative amounts
and halfLifeHours > 0, the level is non-increasing in the evaluation
instant over instants at or after every dose timestamp; it can increase
when the instant crosses a dose's timestamp (see the counterexample). -/
theorem claim_C4_amended (doses : List Dose) (h t1 t2 : ℝ)
    (hh : 0 < h) (hamt : ∀ d ∈ doses, 0 ≤ d.amount)
    (hts : ∀ d ∈ doses, d.timestamp ≤ t1) (h12 : t1 ≤ t2)
    (v1 v2 : ℝ)
    (hv1 : calculateActiveLevel doses ⟨h, t1⟩ = .ok v1)
    (hv2 : calculateActiveLevel doses ⟨h, t2⟩ = .ok v2) :
    v2 ≤ v1 := by
  rw [calculateActiveLevel_eq_sum _ _ hh] at hv1 hv2
  obtain rfl := (Except.ok.injEq _ _).mp hv1.symm
  obtain rfl := (Except.ok.injEq _ _).mp hv2.symm
  apply List.sum_le_sum
  intro d hd
  exact doseContribution_anti h t1 t2 d hh (hamt d hd) (hts d hd) h12

/-- Witness for the amended C4: a 1 mg dose at time 0, half-life 1,
compared at the instants 0 and 0. -/
theorem claim_C4_witness :
    ∃ v : ℝ, calculateActiveLevel [⟨"w", 1, .mg, 0⟩] ⟨1, 0⟩ = .ok v ∧
      v ≤ v := by
  have h1 : calculateActiveLevel [⟨"w", 1, .mg, 0⟩] ⟨1, 0⟩ = .ok 1 := by
    rw [calculateActiveLevel_eq_sum _ _ (by norm_num)]
    simp [doseContribution, convertToMg]
  refine ⟨1, h1, claim_C4_amended [⟨"w", 1, .mg, 0⟩] 1 0 0 (by norm_num)
    ?_ ?_ le_rfl 1 1 h1 h1⟩
  · intro d hd
    rw [List.mem_singleton] at hd
    subst hd
    norm_num
  · intro d hd
    rw [List.mem_singleton] at hd
    subst hd
    norm_num

/-- A JavaScript number as produced by `parseFloat` at the input
boundary: `NaN`, `Infinity`, `-Infinity`, or a finite value. -/
inductive JSNum where
  | nan
  | posInf
  | negInf
  | num (x : ℝ)

/-- The JavaScript `isNaN(a)` test used by `addDose`. -/
def JSNum.isNaN : JSNum → Bool
  | .nan => true
  | _ => false

/-- The JavaScript comparison `a <= 0` used by `addDose`: false for
`NaN` and `Infinity`, true for `-Infinity` and for finite values ≤ 0. -/
noncomputable def JSNum.leZero : JSNum → Bool
  | .nan => false
  | .posInf => false
  | .negInf => true
  | .num x => decide (x ≤ 0)

/-- A dose as stored on the form-submission path: the amount keeps the
raw value `parseFloat` produced, which can be `Infinity`. -/
structure JSDose where
  id : String
  amount : JSNum
  unit : DoseUnit
  timestamp : ℝ

/-- Embedding of the sort-by-comparator call
`[...].sort((a, b) => a.timestamp.getTime() - b.timestamp.getTime())`
from `addDose`: a stable sort by ascending timestamp. -/
noncomputable def sortDosesByTime (doses : List JSDose) : List JSDose :=
  doses.mergeSort (fun a b => decide (a.timestamp ≤ b.timestamp))

/-- Embedding of `addDose`: rejects when `isNaN(amount) || amount <= 0`, leaving the
collection unchanged (only an alert is shown); otherwise replaces the
collection by the timestamp-sorted old collection plus the new dose. -/
noncomputable def addDose (parsedAmount : JSNum) (unit : DoseUnit)
    (timestamp : ℝ) (id : String) (doses : List JSDose) : List JSDose :=
  if parsedAmount.isNaN || parsedAmount.leZero then
    doses
  else
    sortDosesByTime (doses ++ [⟨id, parsedAmount, unit, timestamp⟩])

/-- Claim C7 counterexample: a parsed amount of `Infinity` is not
rejected — `isNaN(Infinity)` and `Infinity <= 0` are both false — so the
dose enters the collection (placed by timestamp), contradicting "an
amount that does not parse to a positive finite number is rejected and
the collection is left exactly unchanged". -/
theorem claim_C7_counterexample :
    addDose .posInf .mg 1 "new" [⟨"old", .num 1, .mg, 2⟩] =
      [⟨"new", .posInf, .mg, 1⟩, ⟨"old", .num 1, .mg, 2⟩] ∧
    addDose .posInf .mg 1 "new" [⟨"old", .num 1, .mg, 2⟩] ≠
      [⟨"old", .num 1, .mg, 2⟩] ∧
    addDose .posInf .mg 1 "new" [⟨"old", .num 1, .mg, 2⟩] ≠
      [⟨"old", .num 1, .mg, 2⟩] ++ [⟨"new", .posInf, .mg, 1⟩] := by
  have hle : (fun a b : JSDose => decide (a.timestamp ≤ b.timestamp))
      ⟨"old", .num 1, .mg, 2⟩ ⟨"new", .posInf, .mg, 1⟩ = false := by
    rw [decide_eq_false_iff_not]
    norm_num
  have hres : addDose .posInf .mg 1 "new" [⟨"old", .num 1, .mg, 2⟩] =
      [⟨"new", .posInf, .mg, 1⟩, ⟨"old", .num 1, .mg, 2⟩] := by
    rw [addDose]
    simp only [JSNum.isNaN, JSNum.leZero, Bool.or_self, Bool.false_eq_true,
      if_false, sortDosesByTime, List.singleton_append]
    rw [List.mergeSort]
    simp [List.splitInTwo, List.mergeSort, List.merge, hle]
  refine ⟨hres, ?_, ?_⟩
  · rw [hres]
    simp
  · rw [hres]
    simp

/-- Claim C7 (amended): a parsed amount that is NaN, −Infinity, zero or
negative is rejected and the collection is left exactly unchanged; any
other submitted amount — a strictly positive finite value, but also
+Infinity, which the guard `isNaN(amount) || amount <= 0` lets through —
is accepted, and the collection becomes the old collection with the new
dose appended and the whole list stably re-sorted by timestamp (a
permutation of the appended list). -/
theorem claim_C7_amended (parsedAmount : JSNum) (unit : DoseUnit)
    (timestamp : ℝ) (id : String) (doses : List JSDose) :
    ((parsedAmount = .nan ∨ parsedAmount = .negInf ∨
        ∃ x, parsedAmount = .num x ∧ x ≤ 0) →
      addDose parsedAmount unit timestamp id doses = doses) ∧
    ((parsedAmount = .posInf ∨ ∃ x, parsedAmount = .num x ∧ 0 < x) →
      addDose parsedAmount unit timestamp id doses =
        sortDosesByTime
          (doses ++ [⟨id, parsedAmount, unit, timestamp⟩]) ∧
      (addDose parsedAmount unit timestamp id doses).Perm
        (doses ++ [⟨id, parsedAmount, unit, timestamp⟩])) := by
  constructor
  · rintro (rfl | rfl | ⟨x, rfl, hx⟩)
    · rw [addDose, if_pos]
      rfl
    · rw [addDose, if_pos]
      rfl
    · rw [addDose, if_pos]
      simp [JSNum.isNaN, JSNum.leZero, hx]
  · rintro (rfl | ⟨x, rfl, hx⟩)
    · rw [addDose, if_neg (by simp [JSNum.isNaN, JSNum.leZero])]
      exact ⟨rfl, List.mergeSort_perm _ _⟩
    · rw [addDose, if_neg (by simp [JSNum.isNaN, JSNum.leZero, hx,
        not_le.mpr hx])]
      exact ⟨rfl, List.mergeSort_perm _ _⟩

/-- Witness for the amended C7: a submitted amount of 0 is rejected on
the empty collection, and an amount of 1 is accepted. -/
theorem claim_C7_witness :
    addDose (.num 0) .mg 0 "z" [] = [] ∧
    addDose (.num 1) .mg 0 "o" [] =
      sortDosesByTime ([] ++ [⟨"o", .num 1, .mg, 0⟩]) :=
  ⟨(claim_C7_amended (.num 0) .mg 0 "z" []).1
      (Or.inr (Or.inr ⟨0, rfl, le_rfl⟩)),
   ((claim_C7_amended (.num 1) .mg 0 "o" []).2
      (Or.inr ⟨1, rfl, by norm_num⟩)).1⟩

/-- One record of the chart dataset: the raw instant and the level
rounded for display. The source also carries `time`, a locale-formatted
rendering of the same instant, which has no numeric content and is not
modelled. -/
structure ChartPoint where
  timestamp : ℝ
  level : ℝ

/-- Embedding of `parseFloat(level.toFixed(2))`: round to 2 decimal places. -/
noncomputable def round2 (x : ℝ) : ℝ := round (x * 100) / 100

/-- Embedding of `Math.min(...doses.map(d => d.timestamp.getTime()))` for the
non-empty dose list `d :: ds`. -/
noncomputable def oldestDose (d : Dose) (ds : List Dose) : ℝ :=
  (ds.map Dose.timestamp).foldl min d.timestamp

/-- Embedding of `startTime = Math.min(oldestDose, now)`. -/
noncomputable def chartStartTime (d : Dose) (ds : List Dose) (now : ℝ) :
    ℝ :=
  min (oldestDose d ds) now

/-- Embedding of `endTime = now + futureHours * 60 * 60 * 1000` with
`futureHours = halfLifeHours * 5`. -/
noncomputable def chartEndTime (halfLifeHours now : ℝ) : ℝ :=
  now + halfLifeHours * 5 * 60 * 60 * 1000

/-- Embedding of `timeStep = (endTime - startTime) / numPoints` with
`numPoints = 100`. -/
noncomputable def chartTimeStep (d : Dose) (ds : List Dose)
    (halfLifeHours now : ℝ) : ℝ :=
  (chartEndTime halfLifeHours now - chartStartTime d ds now) / 100

/-- The evenly spaced sample instants
`startTime + i * timeStep` for `i = 0, 1, ..., 100`
(the loop `for (let i = 0; i <= numPoints; i++)`). -/
noncomputable def gridTimes (d : Dose) (ds : List Dose)
    (halfLifeHours now : ℝ) : List ℝ :=
  (List.range 101).map
    (fun i : ℕ =>
      chartStartTime d ds now + (i : ℝ) * chartTimeStep d ds halfLifeHours now)

/-- The deduplicated, ascending list of sample instants: the JS `Set`
of dose timestamps and grid instants, turned into an array and sorted
numerically. -/
noncomputable def sortedTimes (d : Dose) (ds : List Dose)
    (halfLifeHours now : ℝ) : List ℝ :=
  (((d :: ds).map Dose.timestamp ++ gridTimes d ds halfLifeHours now).dedup).mergeSort
    (fun a b => decide (a ≤ b))

/-- Embedding of `generateChartData`: the empty collection yields an empty dataset;
otherwise every sample instant is mapped to a chart record carrying the
instant and the 2-decimal rounding of the active level there
(propagating the half-life error, which the source would throw). -/
noncomputable def generateChartData (doses : List Dose)
    (halfLifeHours now : ℝ) : Except String (List ChartPoint) :=
  match doses with
  | [] => .ok []
  | d :: ds =>
    (sortedTimes d ds halfLifeHours now).mapM (fun time =>
      (calculateActiveLevel (d :: ds) ⟨halfLifeHours, time⟩).map
        (fun level => ⟨time, round2 level⟩))

lemma mapM_ok {α β : Type} (l : List α) (f : α → Except String β)
    (g : α → β) (hf : ∀ a ∈ l, f a = .ok (g a)) :
    l.mapM f = .ok (l.map g) := by
  induction l with
  | nil => rfl
  | cons a l ih =>
    rw [List.mapM_cons, hf a (List.mem_cons_self a l),
      ih (fun x hx => hf x (List.mem_cons_of_mem a hx))]
    rfl

lemma foldl_min_le_init (l : List ℝ) (a : ℝ) : l.foldl min a ≤ a := by
  induction l generalizing a with
  | nil => exact le_rfl
  | cons b l ih =>
    exact (ih (min a b)).trans (min_le_left a b)

lemma foldl_min_le_mem (l : List ℝ) (a : ℝ) (x : ℝ) (hx : x ∈ l) :
    l.foldl min a ≤ x := by
  induction l generalizing a with
  | nil => cases hx
  | cons b l ih =>
    rcases List.mem_cons.mp hx with rfl | hx
    · exact (foldl_min_le_init l (min a x)).trans (min_le_right a x)
    · exact ih (min a b) hx

lemma oldestDose_le (d : Dose) (ds : List Dose) (dose : Dose)
    (hdose : dose ∈ d :: ds) : oldestDose d ds ≤ dose.timestamp := by
  rcases List.mem_cons.mp hdose with rfl | hmem
  · exact foldl_min_le_init _ _
  · exact foldl_min_le_mem _ _ _ (List.mem_map_of_mem Dose.timestamp hmem)

lemma sortedTimes_mem (d : Dose) (ds : List Dose) (h now t : ℝ) :
    t ∈ sortedTimes d ds h now ↔
      (∃ dose ∈ d :: ds, dose.timestamp = t) ∨
      ∃ i : ℕ, i ≤ 100 ∧
        t = chartStartTime d ds now + (i : ℝ) * chartTimeStep d ds h now := by
  rw [sortedTimes, List.mem_mergeSort, List.mem_dedup, List.mem_append]
  apply or_congr
  · exact List.mem_map
  · rw [gridTimes, List.mem_map]
    constructor
    · rintro ⟨i, hi, rfl⟩
      exact ⟨i, Nat.lt_succ_iff.mp (List.mem_range.mp hi), rfl⟩
    · rintro ⟨i, hi, rfl⟩
      exact ⟨i, List.mem_range.mpr (Nat.lt_succ_iff.mpr hi), rfl⟩

lemma sortedTimes_sorted (d : Dose) (ds : List Dose) (h now : ℝ) :
    (sortedTimes d ds h now).Pairwise (· < ·) := by
  have hs : (sortedTimes d ds h now).Pairwise
      (fun a b : ℝ => decide (a ≤ b) = true) := by
    apply List.sorted_mergeSort
    · intro a b c hab hbc
      rw [decide_eq_true_eq] at *
      exact le_trans hab hbc
    · intro a b
      rcases le_total a b with hab | hba
      · simp [hab]
      · simp [hba]
  have hnd : (sortedTimes d ds h now).Nodup :=
    ((List.mergeSort_perm _ _).nodup_iff).mpr (List.nodup_dedup _)
  exact List.Sorted.lt_of_le
    (hs.imp (fun hab => of_decide_eq_true hab)) hnd

/-- Claim C8 (amended): for a non-empty dose list and positive
half-life, the chart dataset is defined and its instants are exactly
the dose timestamps together with the 101 grid points
`startTime + i·timeStep` for `i = 0..100` (the endpoints of 100 evenly
spaced intervals — the source loop runs from 0 to `numPoints = 100`
inclusive), deduplicated and strictly ascending; each record's level is
the 2-decimal rounding of the active level at its instant; the grid
spans `startTime = min(earliest dose, now)` to
`endTime = now + 5·halfLife`, both attained, and when no dose lies past
`endTime` every instant lies in `[startTime, endTime]`. -/
theorem claim_C8_amended (d : Dose) (ds : List Dose) (h now : ℝ)
    (hh : 0 < h) :
    ∃ pts : List ChartPoint,
      generateChartData (d :: ds) h now = .ok pts ∧
      pts.map ChartPoint.timestamp = sortedTimes d ds h now ∧
      (pts.map ChartPoint.timestamp).Pairwise (· < ·) ∧
      (∀ t : ℝ, t ∈ pts.map ChartPoint.timestamp ↔
        (∃ dose ∈ d :: ds, dose.timestamp = t) ∨
        ∃ i : ℕ, i ≤ 100 ∧
          t = chartStartTime d ds now + (i : ℝ) * chartTimeStep d ds h now) ∧
      (∀ p ∈ pts, ∃ v,
        calculateActiveLevel (d :: ds) ⟨h, p.timestamp⟩ = .ok v ∧
        p.level = round2 v) ∧
      chartStartTime d ds now ∈ pts.map ChartPoint.timestamp ∧
      chartEndTime h now ∈ pts.map ChartPoint.timestamp ∧
      ((∀ dose ∈ d :: ds, dose.timestamp ≤ chartEndTime h now) →
        ∀ t ∈ pts.map ChartPoint.timestamp,
          chartStartTime d ds now ≤ t ∧ t ≤ chartEndTime h now) := by
  have hunfold : generateChartData (d :: ds) h now =
      (sortedTimes d ds h now).mapM (fun time =>
        (calculateActiveLevel (d :: ds) ⟨h, time⟩).map
          (fun level => (⟨time, round2 level⟩ : ChartPoint))) := rfl
  have hgen : generateChartData (d :: ds) h now =
      .ok ((sortedTimes d ds h now).map (fun t =>
        (⟨t, round2 (((d :: ds).map (doseContribution h t)).sum)⟩ :
          ChartPoint))) := by
    rw [hunfold]
    exact mapM_ok _ _ _ (fun t _ => by
      rw [calculateActiveLevel_eq_sum _ _ hh]
      rfl)
  have hts : (((sortedTimes d ds h now).map (fun t =>
      (⟨t, round2 (((d :: ds).map (doseContribution h t)).sum)⟩ :
        ChartPoint))).map ChartPoint.timestamp) = sortedTimes d ds h now := by
    rw [List.map_map]
    exact List.map_id'' (fun x => rfl) _
  refine ⟨_, hgen, hts, ?_, ?_, ?_, ?_, ?_, ?_⟩
  · rw [hts]
    exact sortedTimes_sorted d ds h now
  · intro t
    rw [hts]
    exact sortedTimes_mem d ds h now t
  · intro p hp
    obtain ⟨t, htL, rfl⟩ := List.mem_map.mp hp
    exact ⟨_, calculateActiveLevel_eq_sum _ _ hh, rfl⟩
  · rw [hts]
    exact (sortedTimes_mem d ds h now _).mpr (Or.inr ⟨0, by norm_num, by simp⟩)
  · rw [hts]
    refine (sortedTimes_mem d ds h now _).mpr (Or.inr ⟨100, le_rfl, ?_⟩)
    rw [chartTimeStep]
    push_cast
    field_simp
  · intro hdle t ht
    rw [hts] at ht
    have hsnow : chartStartTime d ds now ≤ now := min_le_right _ _
    have hnowe : now ≤ chartEndTime h now := by
      rw [chartEndTime]
      nlinarith [hh]
    have hstep : 0 ≤ chartTimeStep d ds h now := by
      rw [chartTimeStep]
      exact div_nonneg (by linarith) (by norm_num)
    rcases (sortedTimes_mem d ds h now t).mp ht with
      ⟨dose, hdose, rfl⟩ | ⟨i, hi, rfl⟩
    · exact ⟨(min_le_left _ _).trans (oldestDose_le d ds dose hdose),
        hdle dose hdose⟩
    · constructor
      · have hmul := mul_nonneg (Nat.cast_nonneg i : (0 : ℝ) ≤ i) hstep
        linarith
      · have h1 : (i : ℝ) * chartTimeStep d ds h now ≤
            100 * chartTimeStep d ds h now := by
          apply mul_le_mul_of_nonneg_right _ hstep
          exact_mod_cast hi
        have h2 : (100 : ℝ) * chartTimeStep d ds h now =
            chartEndTime h now - chartStartTime d ds now := by
          rw [chartTimeStep]
          field_simp
        linarith

/-- Witness for the amended C8: a single 1 mg dose at time 0 with
half-life 1 at now = 0 yields a defined, strictly sorted dataset. -/
theorem claim_C8_witness :
    0 < (1 : ℝ) ∧ ∃ pts : List ChartPoint,
      generateChartData [⟨"w", 1, .mg, 0⟩] 1 0 = .ok pts ∧
      (pts.map ChartPoint.timestamp).Pairwise (· < ·) :=
  ⟨by norm_num, by
    obtain ⟨pts, h1, _, h3, _⟩ :=
      claim_C8_amended ⟨"w", 1, .mg, 0⟩ [] 1 0 (by norm_num)
    exact ⟨pts, h1, h3⟩⟩

/-- Claim C8 counterexample: the instants are NOT the dose timestamps
plus 100 grid points. With one dose at instant 0.5, now = 0 and
half-life 1/180000 h (so endTime = 100 and timeStep = 1), the code
samples the dose timestamp plus the 101 grid instants 0,1,...,100 — 102
distinct instants in all, while the claim's reading allows at most
1 + 100 = 101: no 100-element grid set G makes the sampled set equal
the dose timestamps united with G. -/
theorem claim_C8_counterexample :
    ¬ ∃ G : Finset ℝ, G.card = 100 ∧
      (sortedTimes ⟨"c", 1, .mg, 0.5⟩ [] (1 / 180000) 0).toFinset =
        insert (0.5 : ℝ) G := by
  have hstart : chartStartTime ⟨"c", 1, .mg, 0.5⟩ [] 0 = 0 := by
    rw [chartStartTime, oldestDose]
    norm_num [min_def]
  have hend : chartEndTime (1 / 180000) 0 = 100 := by
    rw [chartEndTime]
    norm_num
  have hstep : chartTimeStep ⟨"c", 1, .mg, 0.5⟩ [] (1 / 180000) 0 = 1 := by
    rw [chartTimeStep, hstart, hend]
    norm_num
  have hgrid : gridTimes ⟨"c", 1, .mg, 0.5⟩ [] (1 / 180000) 0 =
      (List.range 101).map (fun i : ℕ => (i : ℝ)) := by
    rw [gridTimes, hstart, hstep]
    simp
  have hnodupgrid : ((List.range 101).map (fun i : ℕ => (i : ℝ))).Nodup :=
    (List.nodup_range 101).map Nat.cast_injective
  have hnotmem : (0.5 : ℝ) ∉ (List.range 101).map (fun i : ℕ => (i : ℝ)) := by
    intro hmem
    obtain ⟨i, hi, heq⟩ := List.mem_map.mp hmem
    rcases Nat.eq_zero_or_pos i with rfl | hpos
    · norm_num at heq
    · have hge : (1 : ℝ) ≤ (i : ℝ) := by exact_mod_cast hpos
      rw [heq] at hge
      norm_num at hge
  have htf : (sortedTimes ⟨"c", 1, .mg, 0.5⟩ [] (1 / 180000) 0).toFinset =
      insert (0.5 : ℝ)
        ((List.range 101).map (fun i : ℕ => (i : ℝ))).toFinset := by
    rw [sortedTimes,
      List.toFinset_eq_of_perm _ _ (List.mergeSort_perm _ _)]
    rw [List.toFinset.ext (fun x => List.mem_dedup)]
    rw [hgrid]
    rw [show ([⟨"c", 1, .mg, 0.5⟩] : List Dose).map Dose.timestamp =
      [(0.5 : ℝ)] from rfl]
    rw [List.singleton_append, List.toFinset_cons]
  have hcard : (sortedTimes ⟨"c", 1, .mg, 0.5⟩ [] (1 / 180000) 0).toFinset.card
      = 102 := by
    rw [htf, Finset.card_insert_of_not_mem (by
      rw [List.mem_toFinset]
      exact hnotmem)]
    rw [List.toFinset_card_of_nodup hnodupgrid, List.length_map,
      List.length_range]
  rintro ⟨G, hGcard, hGeq⟩
  rw [hGeq] at hcard
  have hle : (insert (0.5 : ℝ) G).card ≤ 101 := by
    refine (Finset.card_insert_le _ _).trans ?_
    rw [hGcard]
  omega
